import Mathlib

/-!
Verification of the Quantitative Indicator Engine of the TradingAgents-CN
repository: the four analyzer modules (technical, fundamentals, sentiment,
risk) and the aggregating toolkit.  Each definition below is a shallow
embedding of the corresponding Python function, with machine floats
modelled by exact rationals, IEEE NaN results modelled by `Option.none`,
Python `None` by `Option.none`, and ambient `np.random` draws modelled by
an explicit stream `ℕ → ℚ` of sampled values.
-/

attribute [local semireducible] Rat.add Rat.sub Rat.mul Rat.inv

set_option maxRecDepth 40000

namespace TradingAgents

/-! ## Aggregator (`enhanced_analysis_toolkit.py`) -/

/-- Embeds `_generate_investment_recommendation`: the rating ladder applied
to `comprehensive_summary.overall_score`
(`enhanced_analysis_toolkit.py` lines 381-395). -/
def investmentRating (overall : ℚ) : String :=
  if 80 ≤ overall then "强烈买入"
  else if 65 ≤ overall then "买入"
  else if 50 ≤ overall then "持有"
  else if 35 ≤ overall then "减持"
  else "卖出"

/-- Number of bullish entries of the technical `signals` mapping:
`sum(1 for signal in signals.values() if signal == "买入" or signal == "看涨")`
(`enhanced_analysis_toolkit.py` line 280). -/
def bullishCount (signals : List (String × String)) : ℕ :=
  (signals.filter (fun p => p.2 == "买入" || p.2 == "看涨")).length

/-- Embeds the technical-score computation of `_generate_comprehensive_summary`
(`enhanced_analysis_toolkit.py` lines 274-282): the score starts at `0`; when
the `signals` mapping is non-empty (Python truthiness of a dict) the score is
set to `bullish/total*100` if `total > 0` and to `50` otherwise. -/
def technicalScore (signals : List (String × String)) : ℚ :=
  if signals.isEmpty then 0
  else if 0 < signals.length then (bullishCount signals : ℚ) / signals.length * 100
  else 50

/-! ## Fundamentals analyzer (`enhanced_fundamentals_analysis.py`) -/

/-- Python truthiness of an optional float: `None` and `0.0` are falsy. -/
def truthyQ : Option ℚ → Bool
  | none => false
  | some x => x != 0

/-- Python truthiness of an optional string: `None` and `""` are falsy. -/
def truthyStr : Option String → Bool
  | none => false
  | some s => s != ""

/-- Embeds the valuation-level rule of `_calculate_valuation_metrics`
(`enhanced_fundamentals_analysis.py` lines 151-161): `if pe and pb:` uses
Python truthiness, so a parsed value of `0` is treated like a missing one
and the level stays "未知". -/
def valuationLevel (pe pb : Option ℚ) : String :=
  if truthyQ pe && truthyQ pb then
    let p := pe.getD 0
    let b := pb.getD 0
    if p < 15 ∧ b < 2 then "低估"
    else if 30 < p ∨ 5 < b then "高估"
    else "合理"
  else "未知"

/-- Result record of `_calculate_financial_health`. -/
structure FinancialHealth where
  debtToEquity : Option ℚ
  current : Option ℚ
  quick : Option ℚ
  interestCoverage : Option ℚ
  cash : Option ℚ
  healthScore : ℕ
  healthLevel : String
  deriving DecidableEq, Repr

/-- Embeds `_calculate_financial_health`
(`enhanced_fundamentals_analysis.py` lines 171-217): for any truthy
(non-empty) `fundamentals_data` the five ratios are hardcoded sample
values, the score adds 20 points per satisfied threshold (each guard also
checks float truthiness of the ratio) and the level is banded at 80/60/40. -/
def financialHealth (fundamentalsData : Option String) : FinancialHealth :=
  if truthyStr fundamentalsData then
    let d : ℚ := 2/5
    let cr : ℚ := 9/5
    let qr : ℚ := 6/5
    let ic : ℚ := 17/2
    let ca : ℚ := 3/10
    let score : ℕ :=
      (if d ≠ 0 ∧ d < 1/2 then 20 else 0) +
      (if cr ≠ 0 ∧ 3/2 < cr then 20 else 0) +
      (if qr ≠ 0 ∧ 1 < qr then 20 else 0) +
      (if ic ≠ 0 ∧ 5 < ic then 20 else 0) +
      (if ca ≠ 0 ∧ 1/5 < ca then 20 else 0)
    { debtToEquity := some d, current := some cr, quick := some qr,
      interestCoverage := some ic, cash := some ca, healthScore := score,
      healthLevel :=
        if 80 ≤ score then "优秀"
        else if 60 ≤ score then "良好"
        else if 40 ≤ score then "一般"
        else "较差" }
  else
    { debtToEquity := none, current := none, quick := none,
      interestCoverage := none, cash := none, healthScore := 0,
      healthLevel := "未知" }

/-! ## Sentiment analyzer (`enhanced_sentiment_analysis.py`) -/

/-- Whether the second character list is an initial segment of the first. -/
def leadsWith : List Char → List Char → Bool
  | _, [] => true
  | [], _ :: _ => false
  | h :: hs, p :: ps => h == p && leadsWith hs ps

/-- Whether the pattern occurs contiguously inside the haystack. -/
def containsChars : List Char → List Char → Bool
  | [], pat => pat.isEmpty
  | h :: t, pat => leadsWith (h :: t) pat || containsChars t pat

/-- Substring test, mirroring Python's `pat in s`. -/
def strContains (s pat : String) : Bool := containsChars s.data pat.data

/-- Value of a list of decimal digit characters. -/
def digitsToNat (cs : List Char) : ℕ :=
  cs.foldl (fun n c => 10 * n + (c.toNat - 48)) 0

/-- First maximal run of ASCII digits of a string, mirroring
`re.search(r"(\d+)", s)`; `none` when the string holds no digit
(in the source this raises `AttributeError`, caught by the bare `except`). -/
def firstNat (s : String) : Option ℕ :=
  let cs := s.data.dropWhile (fun c => !c.isDigit)
  if cs.isEmpty then none
  else some (digitsToNat (cs.takeWhile Char.isDigit))

/-- Embeds `_calculate_single_time_decay`
(`enhanced_sentiment_analysis.py` lines 396-426).  Only the markers
"小时前" and "天前" are recognised; every other string falls to the final
`else` branch and returns `1.0` (treated as same-day news).  The `except`
branch returning `0.5` is reached exactly when a recognised marker is
present but no digits can be extracted. -/
def singleTimeDecay (timeStr : String) : ℚ :=
  if strContains timeStr "小时前" then
    match firstNat timeStr with
    | none => 1/2
    | some h => if h < 24 then 1 else 9/10
  else if strContains timeStr "天前" then
    match firstNat timeStr with
    | none => 1/2
    | some d =>
      if d = 1 then 9/10
      else if d = 2 then 4/5
      else if d = 3 then 7/10
      else if d ≤ 7 then 3/5
      else if d ≤ 14 then 2/5
      else if d ≤ 30 then 1/5
      else 1/10
  else 1

/-! ## Technical analyzer (`enhanced_technical_analysis.py`) -/

/-- Successive differences `df['Close'].diff()` (dropping the leading NaN):
`diffsOf closes` lists `closes[i+1] - closes[i]`. -/
def diffsOf (closes : List ℚ) : List ℚ :=
  List.zipWith (fun prev next => next - prev) closes closes.tail

/-- Last `k` entries of a list: the final window of a pandas
`rolling(k)` computation. -/
def lastK (k : ℕ) (l : List ℚ) : List ℚ := l.drop (l.length - k)

/-- `delta.where(delta > 0, 0)`: keep positive deltas, others become 0. -/
def gainsOf (deltas : List ℚ) : List ℚ :=
  deltas.map (fun d => if 0 < d then d else 0)

/-- `(-delta).where(delta < 0, 0)`: absolute negative deltas, others 0. -/
def lossesOf (deltas : List ℚ) : List ℚ :=
  deltas.map (fun d => if d < 0 then -d else 0)

/-- Last value of `gain.rolling(14).mean()`: mean of the final 14 gains. -/
def avgGain14 (closes : List ℚ) : ℚ := (gainsOf (lastK 14 (diffsOf closes))).sum / 14

/-- Last value of `loss.rolling(14).mean()`: mean of the final 14 losses. -/
def avgLoss14 (closes : List ℚ) : ℚ := (lossesOf (lastK 14 (diffsOf closes))).sum / 14

/-- Embeds the RSI computation of `calculate_technical_indicators`
(`enhanced_technical_analysis.py` lines 84-96),
`rs = gain/loss` and `rsi = 100 - 100/(1+rs)` in IEEE float semantics:
when `avg_loss = 0` and `avg_gain > 0`, `rs = +inf` and `rsi = 100`; when
both averages are `0` (constant closes), `rs = 0/0 = NaN` and the reported
RSI is NaN, modelled as `none`.  A series shorter than 15 closes leaves
the last rolling window containing the leading NaN of `diff()`, also NaN. -/
def rsiLast (closes : List ℚ) : Option ℚ :=
  if closes.length < 15 then none
  else if avgLoss14 closes = 0 then
    (if avgGain14 closes = 0 then none else some 100)
  else some (100 - 100 / (1 + avgGain14 closes / avgLoss14 closes))

/-- Arithmetic mean, `np.mean` / pandas `.mean()`. -/
def meanQ (l : List ℚ) : ℚ := l.sum / l.length

/-- Final value of `df['Close'].rolling(20).std() ** 2`: the sample
variance (ddof = 1) of the last 20 closes. -/
def sampleVar20 (closes : List ℚ) : ℚ :=
  ((lastK 20 closes).map (fun x => (x - meanQ (lastK 20 closes)) ^ 2)).sum / 19

/-- Whether the Bollinger price-position division
`(current_price - bb_lower) / (bb_upper - bb_lower) * 100`
(`enhanced_technical_analysis.py` line 127) divides by zero: the divisor
is `4 * std20`, which is zero exactly when the sample variance of the last
20 closes is zero.  The source performs this division with no zero guard. -/
def bollingerDivZero (closes : List ℚ) : Bool :=
  decide (sampleVar20 closes = 0)

/-- Embeds the guarded volume-ratio computation
(`enhanced_technical_analysis.py` lines 137-150): the ratio
`current / avg_20d` is only computed after checking `avg_volume_20 > 0`;
otherwise the zeroed record (ratio 0) is produced. -/
def volumeQuotient (currentVol avg20 : ℚ) : ℚ :=
  if 0 < avg20 then currentVol / avg20 else 0

/-! ## Risk analyzer (`enhanced_risk_analysis.py`) -/

/-- Simple daily returns `np.diff(prices) / prices[:-1]`
(`_calculate_returns`). -/
def returnsOf (prices : List ℚ) : List ℚ :=
  List.zipWith (fun prev next => (next - prev) / prev) prices prices.tail

/-- The 60-point mock random-walk series generated by `_parse_price_data`
when fewer than 30 prices parse: `base = 100`, then 60 steps of
`base *= (1 + change)` where each `change` is an `np.random.normal(0, 0.02)`
draw, modelled by the explicit stream `rng`. -/
def mockPrices (rng : ℕ → ℚ) : List ℚ :=
  (List.range 60).map (fun i => 100 * ((List.range (i + 1)).map (fun j => 1 + rng j)).prod)

/-- Embeds `_parse_price_data` (`enhanced_risk_analysis.py` lines 104-139)
after line extraction: `extracted` is the list of prices recognised in the
text; if fewer than 30 were found, the 60-point mock series replaces them. -/
def parsePriceData (extracted : List ℚ) (rng : ℕ → ℚ) : List ℚ :=
  if extracted.length < 30 then mockPrices rng else extracted

/-- Embeds the length gate of `analyze_risk_metrics`
(`enhanced_risk_analysis.py` lines 47-49): the `{error}` result is
returned when the parsed series has fewer than 30 points, otherwise the
analysis proceeds and reports `price_data_points = len(price_series)`. -/
def riskGate (extracted : List ℚ) (rng : ℕ → ℚ) : Except String ℕ :=
  if (parsePriceData extracted rng).length < 30 then
    Except.error "股票价格数据不足，无法进行风险分析"
  else Except.ok (parsePriceData extracted rng).length

/-- `np.cov(x, y)[0, 1]`: sample covariance with denominator `n - 1`
(numpy default ddof = 1). -/
def covSample (x y : List ℚ) : ℚ :=
  (List.zipWith (fun a b => (a - meanQ x) * (b - meanQ y)) x y).sum / ((x.length : ℚ) - 1)

/-- `np.var(y)`: population variance with denominator `n`
(numpy default ddof = 0). -/
def varPop (y : List ℚ) : ℚ :=
  ((y.map (fun a => (a - meanQ y) ^ 2)).sum) / y.length

/-- Beta of `_calculate_market_risk` (`enhanced_risk_analysis.py`
lines 171-175): `cov / market_variance`, set only when the market
variance is positive. -/
def betaOf (returns market : List ℚ) : Option ℚ :=
  if 0 < varPop market then some (covSample returns market / varPop market) else none

/-- The synthetic market-return series
`np.random.normal(0.0008, 0.015, len(returns))` of `_calculate_market_risk`
(lines 163-169), modelled as the first `n` draws of the stream `rng`.
This path is taken on every call: when `market_data` is `None` directly,
and otherwise because `_parse_market_returns` always returns `None`
(lines 202-205). -/
def marketReturnsOf (rng : ℕ → ℚ) (n : ℕ) : List ℚ := (List.range n).map rng

/-- Ascending sort, as performed internally by `np.percentile`. -/
def sortedOf (l : List ℚ) : List ℚ := List.insertionSort (· ≤ ·) l

/-- Integer part of the interpolation position `(n-1) * q / 100` of
`np.percentile` with linear interpolation. -/
def pctIdx (n q : ℕ) : ℕ := (n - 1) * q / 100

/-- Fractional part of the interpolation position of `np.percentile`. -/
def pctFrac (n q : ℕ) : ℚ := ((n : ℚ) - 1) * q / 100 - pctIdx n q

/-- `np.percentile(l, q)` with the default linear interpolation:
`s[i] + f * (s[above] - s[i])` at position `(n-1) * q / 100 = i + f` of the
ascending sort `s`, where `above = min (i+1) (n-1)` is numpy's clipped
upper index. -/
def percentileQ (l : List ℚ) (q : ℕ) : ℚ :=
  (sortedOf l).getD (pctIdx (sortedOf l).length q) 0 +
    pctFrac (sortedOf l).length q *
      ((sortedOf l).getD (min (pctIdx (sortedOf l).length q + 1)
          ((sortedOf l).length - 1)) 0 -
        (sortedOf l).getD (pctIdx (sortedOf l).length q) 0)

/-- CVaR of `_calculate_var_metrics` (`enhanced_risk_analysis.py`
lines 327-337): the mean of the returns at or below the VaR threshold,
set only when that tail is non-empty. -/
def cvarFrom (returns : List ℚ) (thr : ℚ) : Option ℚ :=
  if (returns.filter (fun x => decide (x ≤ thr))).isEmpty then none
  else some ((returns.filter (fun x => decide (x ≤ thr))).sum /
    ((returns.filter (fun x => decide (x ≤ thr))).length : ℚ))

/-- `np.cumprod(1 + returns)`: cumulative products of `1 + r`. -/
def cumprodOf (r : List ℚ) : List ℚ :=
  ((r.map (fun x => 1 + x)).scanl (· * ·) 1).tail

/-- Running maximum with seed, for `np.maximum.accumulate`. -/
def runningMaxAux (m : ℚ) : List ℚ → List ℚ
  | [] => []
  | x :: xs => max m x :: runningMaxAux (max m x) xs

/-- `np.maximum.accumulate`: prefix maxima of a list. -/
def runningMaxOf : List ℚ → List ℚ
  | [] => []
  | x :: xs => x :: runningMaxAux x xs

/-- Drawdown path `(cumulative - running_max) / running_max`
of `_calculate_downside_risk` (lines 289-293). -/
def drawdownsOf (r : List ℚ) : List ℚ :=
  List.zipWith (fun ci mi => (ci - mi) / mi) (cumprodOf r) (runningMaxOf (cumprodOf r))

/-- `np.min(drawdowns)`: the maximum drawdown.  For a non-empty return
series the first drawdown is 0, so folding `min` from 0 computes `np.min`. -/
def maxDrawdownOf (r : List ℚ) : ℚ := (drawdownsOf r).foldl min 0

/-- The metrics of one `analyze_risk_metrics` run needed for the
determinism analysis: `rngMarket` models the ambient random draws used to
synthesize the market-return series, `rngMc` those of the Monte-Carlo VaR
simulation (lines 344-346); the remaining fields use no randomness. -/
structure RiskRun where
  beta : Option ℚ
  var95 : ℚ
  var99 : ℚ
  cvar95 : Option ℚ
  cvar99 : Option ℚ
  maxDrawdown : ℚ
  varMonteCarlo : ℚ

/-- One run of the risk pipeline on the parsed close prices, with the two
ambient randomness streams made explicit. -/
def riskRun (prices : List ℚ) (rngMarket rngMc : ℕ → ℚ) : RiskRun :=
  { beta := betaOf (returnsOf prices) (marketReturnsOf rngMarket (returnsOf prices).length)
    var95 := percentileQ (returnsOf prices) 5
    var99 := percentileQ (returnsOf prices) 1
    cvar95 := cvarFrom (returnsOf prices) (percentileQ (returnsOf prices) 5)
    cvar99 := cvarFrom (returnsOf prices) (percentileQ (returnsOf prices) 1)
    maxDrawdown := maxDrawdownOf (returnsOf prices)
    varMonteCarlo := percentileQ (marketReturnsOf rngMc 10000) 5 }

/-- A concrete 30-point well-formed price series (alternating 1, 2). -/
def altPrices : List ℚ := (List.range 30).map (fun i => if i % 2 = 0 then 1 else 2)

/-- One possible ambient random stream (first run). -/
def streamA : ℕ → ℚ := fun i => if i % 2 = 0 then 1 else 0

/-- Another possible ambient random stream (second run). -/
def streamB : ℕ → ℚ := fun i => if i % 3 = 0 then 1 else 0

end TradingAgents

namespace TradingAgents

/-! ## Theorems for claims C1, C2, C7, C8, C10 -/

/-- C1: the investment rating is determined from `overall_score` by the
ladder `≥80` → 强烈买入, `≥65` → 买入, `≥50` → 持有, `≥35` → 减持,
else 卖出; in particular `80` → 强烈买入, `79.99` and `65` → 买入,
`49.99` and `35` → 减持, `34.99` → 卖出, and the all-domains-missing
score `0` → 卖出. -/
theorem aggregator_rating_ladder (s : ℚ) :
    (80 ≤ s → investmentRating s = "强烈买入") ∧
    (65 ≤ s ∧ s < 80 → investmentRating s = "买入") ∧
    (50 ≤ s ∧ s < 65 → investmentRating s = "持有") ∧
    (35 ≤ s ∧ s < 50 → investmentRating s = "减持") ∧
    (s < 35 → investmentRating s = "卖出") ∧
    investmentRating 80 = "强烈买入" ∧
    investmentRating (7999/100) = "买入" ∧
    investmentRating 65 = "买入" ∧
    investmentRating (4999/100) = "减持" ∧
    investmentRating 35 = "减持" ∧
    investmentRating (3499/100) = "卖出" ∧
    investmentRating 0 = "卖出" := by
  refine ⟨?_, ?_, ?_, ?_, ?_, by decide, by decide, by decide, by decide,
    by decide, by decide, by decide⟩
  · intro h
    rw [investmentRating, if_pos h]
  · rintro ⟨h1, h2⟩
    rw [investmentRating, if_neg (by linarith), if_pos h1]
  · rintro ⟨h1, h2⟩
    rw [investmentRating, if_neg (by linarith), if_neg (by linarith), if_pos h1]
  · rintro ⟨h1, h2⟩
    rw [investmentRating, if_neg (by linarith), if_neg (by linarith),
      if_neg (by linarith), if_pos h1]
  · intro h
    rw [investmentRating, if_neg (by linarith), if_neg (by linarith),
      if_neg (by linarith), if_neg (by linarith)]

/-- Witness for `aggregator_rating_ladder` at the concrete score 90. -/
theorem aggregator_rating_ladder_witness :
    (80 : ℚ) ≤ 90 ∧ investmentRating 90 = "强烈买入" :=
  ⟨by norm_num, (aggregator_rating_ladder 90).1 (by norm_num)⟩

/-- C2 counterexample: when the technical `signals` mapping is unavailable
(empty), the technical score is `0`, not `50` as the claim states; hence
the claimed fallback value is wrong. -/
theorem technical_score_empty_counterexample :
    technicalScore [] = 0 ∧ technicalScore [] ≠ 50 := by
  constructor <;> decide

/-- C2 amended: the technical score equals the bullish-signal count divided
by the total signal count times 100 whenever signals are present, and is
`0` when the signals mapping is empty or absent; the `50` fallback of the
source ternary is unreachable because it sits under a non-emptiness guard. -/
theorem technical_score_formula (signals : List (String × String)) :
    technicalScore signals =
      if signals.length = 0 then 0
      else (bullishCount signals : ℚ) / signals.length * 100 := by
  rcases signals with _ | ⟨p, rest⟩
  · simp [technicalScore]
  · simp [technicalScore, List.isEmpty]

/-- C7 counterexample: with PE = 35 and PB = 0 both extracted, the
valuation level is "未知", not "高估", refuting the claim that PE = 35
yields "高估" regardless of PB (Python truthiness drops the zero value). -/
theorem valuation_zero_pb_counterexample :
    valuationLevel (some 35) (some 0) = "未知" ∧
    valuationLevel (some 35) (some 0) ≠ "高估" := by
  constructor <;> decide

/-- C7 amended: whenever both extracted PE and PB are positive (nonzero,
hence truthy), the valuation level follows the ladder "低估" iff PE < 15
and PB < 2, "高估" iff otherwise PE > 30 or PB > 5, else "合理"; in
particular PE = 10, PB = 1 gives "低估" and PE = 35 gives "高估" for every
positive PB.  A parsed value of `0` is falsy and leaves the level "未知". -/
theorem valuation_level_ladder (pe pb : ℚ) (hpe : 0 < pe) (hpb : 0 < pb) :
    valuationLevel (some pe) (some pb) =
      (if pe < 15 ∧ pb < 2 then "低估"
       else if 30 < pe ∨ 5 < pb then "高估"
       else "合理") ∧
    valuationLevel (some 10) (some 1) = "低估" ∧
    (30 < pe → valuationLevel (some pe) (some pb) = "高估") := by
  have hpe0 : pe ≠ 0 := ne_of_gt hpe
  have hpb0 : pb ≠ 0 := ne_of_gt hpb
  have h1 : truthyQ (some pe) = true := by simp [truthyQ, hpe0]
  have h2 : truthyQ (some pb) = true := by simp [truthyQ, hpb0]
  have htr : (truthyQ (some pe) && truthyQ (some pb)) = true := by rw [h1, h2]; rfl
  refine ⟨?_, by decide, ?_⟩
  · rw [valuationLevel, if_pos htr]
    rfl
  · intro h30
    rw [valuationLevel, if_pos htr]
    have hnot : ¬(pe < 15 ∧ pb < 2) := by
      rintro ⟨hlt, _⟩; linarith
    show (if pe < 15 ∧ pb < 2 then "低估"
      else if 30 < pe ∨ 5 < pb then "高估" else "合理") = "高估"
    rw [if_neg hnot, if_pos (Or.inl h30)]

/-- Witness for `valuation_level_ladder` at PE = 35, PB = 1. -/
theorem valuation_level_ladder_witness :
    (0 : ℚ) < 35 ∧ (0 : ℚ) < 1 ∧
      valuationLevel (some 35) (some 1) = "高估" :=
  ⟨by norm_num, by norm_num,
    (valuation_level_ladder 35 1 (by norm_num) (by norm_num)).2.2 (by norm_num)⟩

/-- C8 counterexample: the unparsable timestamp "未知" yields decay `1.0`
(the same-day default), not the claimed default `0.5`, and the marker
"1周前" is not recognised at all and also yields `1.0` instead of a decayed
table value. -/
theorem time_decay_counterexample :
    singleTimeDecay "未知" = 1 ∧ singleTimeDecay "未知" ≠ 1/2 ∧
    singleTimeDecay "1周前" = 1 := by
  refine ⟨by decide, by decide, by decide⟩

/-- C8 amended: only the markers "N小时前" and "N天前" are mapped through
the decay table (hours < 24 → 1.0, otherwise 0.9; 1 day → 0.9, 2 → 0.8,
3 → 0.7, ≤7 → 0.6, ≤14 → 0.4, ≤30 → 0.2, older → 0.1); "周前" and "月前"
are not recognised, any string without the two markers returns the
same-day value 1.0, and 0.5 is returned only when a recognised marker
carries no parsable digits. -/
theorem time_decay_table :
    singleTimeDecay "2小时前" = 1 ∧
    singleTimeDecay "25小时前" = 9/10 ∧
    singleTimeDecay "1天前" = 9/10 ∧
    singleTimeDecay "2天前" = 4/5 ∧
    singleTimeDecay "3天前" = 7/10 ∧
    singleTimeDecay "5天前" = 3/5 ∧
    singleTimeDecay "10天前" = 2/5 ∧
    singleTimeDecay "20天前" = 1/5 ∧
    singleTimeDecay "40天前" = 1/10 ∧
    singleTimeDecay "小时前" = 1/2 ∧
    singleTimeDecay "天前" = 1/2 ∧
    singleTimeDecay "2周前" = 1 ∧
    singleTimeDecay "3月前" = 1 ∧
    singleTimeDecay "2024-01-05" = 1 := by
  decide

/-- C10: for every non-empty `fundamentals_data` string the financial
health result is the fixed record debt/equity 0.4, current 1.8, quick 1.2,
interest coverage 8.5, cash 0.3, score 100, level "优秀" — independent of
the string's content, so any two non-empty inputs agree. -/
theorem financial_health_constant (s : String) (h : s ≠ "") :
    financialHealth (some s) =
      { debtToEquity := some (2/5), current := some (9/5), quick := some (6/5),
        interestCoverage := some (17/2), cash := some (3/10),
        healthScore := 100, healthLevel := "优秀" } ∧
    (∀ t : String, t ≠ "" → financialHealth (some s) = financialHealth (some t)) := by
  have hs : truthyStr (some s) = true := by simp [truthyStr, h]
  constructor
  · rw [financialHealth, if_pos hs]
    decide
  · intro t ht
    have hst : truthyStr (some t) = true := by simp [truthyStr, ht]
    rw [financialHealth, if_pos hs, financialHealth, if_pos hst]

/-- Witness for `financial_health_constant` at a concrete input. -/
theorem financial_health_constant_witness :
    "市盈率: 8.5" ≠ "" ∧
      (financialHealth (some "市盈率: 8.5")).healthScore = 100 := by
  refine ⟨by decide, ?_⟩
  rw [(financial_health_constant "市盈率: 8.5" (by decide)).1]

/-! ## Theorems for claims C3, C4, C6, C9 -/

/-- C3 counterexample: on a price text from which no price point parses
(empty extraction, fewer than 30 points), `analyze_risk_metrics` does not
short-circuit with `{error}`: the parser substitutes the 60-point mock
series and the analysis proceeds with `price_data_points = 60`. -/
theorem risk_gate_mock_counterexample :
    riskGate [] (fun _ => 0) = Except.ok 60 := by
  simp [riskGate, parsePriceData, mockPrices]

/-- C3 amended: whenever fewer than 30 price points are parsed from the
text, `_parse_price_data` silently substitutes a 60-point mock random-walk
series and `analyze_risk_metrics` proceeds (reporting 60 data points)
instead of returning the `{error}` result; the length-30 gate can only
fire when parsing itself raises (returns `None`). -/
theorem risk_gate_mock_series (extracted : List ℚ) (rng : ℕ → ℚ)
    (h : extracted.length < 30) :
    riskGate extracted rng = Except.ok 60 := by
  have hm : (mockPrices rng).length = 60 := by simp [mockPrices]
  simp only [riskGate, parsePriceData, if_pos h, hm]
  norm_num

/-- Witness for `risk_gate_mock_series` on the empty extraction. -/
theorem risk_gate_mock_series_witness :
    ([] : List ℚ).length < 30 ∧ riskGate [] (fun _ => 1) = Except.ok 60 :=
  ⟨by decide, risk_gate_mock_series [] (fun _ => 1) (by decide)⟩

/-- C4 counterexample: on the same 30-point well-formed price series, two
runs of the risk analyzer that observe different ambient random draws
(as successive `np.random.normal` calls do) report different betas — beta
is computed against a freshly synthesized random market-return series on
every call, because `_parse_market_returns` always returns `None`. -/
theorem beta_run_dependence_counterexample :
    (riskRun altPrices streamA streamA).beta ≠
      (riskRun altPrices streamB streamB).beta := by decide

/-- C4 amended: the metrics derived from the price series alone
(historical VaR 95/99, CVaR 95/99, maximum drawdown) are identical across
any two runs on the same input; but the market-risk block (beta, and with
it alpha, correlation and tracking error) and the Monte-Carlo VaR depend
on the ambient random streams, so they are not run-to-run identical even
when market text is supplied. -/
theorem risk_metrics_rng_independent (prices : List ℚ) (r1 r2 m1 m2 : ℕ → ℚ) :
    (riskRun prices r1 m1).var95 = (riskRun prices r2 m2).var95 ∧
    (riskRun prices r1 m1).var99 = (riskRun prices r2 m2).var99 ∧
    (riskRun prices r1 m1).cvar95 = (riskRun prices r2 m2).cvar95 ∧
    (riskRun prices r1 m1).cvar99 = (riskRun prices r2 m2).cvar99 ∧
    (riskRun prices r1 m1).maxDrawdown = (riskRun prices r2 m2).maxDrawdown :=
  ⟨rfl, rfl, rfl, rfl, rfl⟩

/-- Sum of the clamped gains is non-negative. -/
theorem gains_sum_nonneg (deltas : List ℚ) : 0 ≤ (gainsOf deltas).sum := by
  apply List.sum_nonneg
  intro x hx
  simp only [gainsOf, List.mem_map] at hx
  obtain ⟨d, _, rfl⟩ := hx
  split_ifs with hd
  · exact le_of_lt hd
  · exact le_refl 0

/-- Sum of the clamped losses is non-negative. -/
theorem losses_sum_nonneg (deltas : List ℚ) : 0 ≤ (lossesOf deltas).sum := by
  apply List.sum_nonneg
  intro x hx
  simp only [lossesOf, List.mem_map] at hx
  obtain ⟨d, _, rfl⟩ := hx
  split_ifs with hd
  · linarith
  · exact le_refl 0

/-- C6 counterexample: a valid 252-bar series with constant close 10
(chronological, close > 0) makes the 14-period average gain and loss both
zero, so `rs = 0/0 = NaN` and the reported RSI is NaN — not a value in
[0, 100]. -/
theorem rsi_constant_series_counterexample :
    rsiLast (List.replicate 252 10) = none := by decide

/-- C6 amended: for every close series of length at least 252 with
positive closes, the RSI is in [0, 100] whenever it is defined (the
trailing 14-period average gain and loss are not both zero); on a series
whose last 15 closes are all equal, both averages are zero and the RSI is
NaN instead. -/
theorem rsi_bounds_when_defined (closes : List ℚ) (h252 : 252 ≤ closes.length)
    (_hpos : ∀ x ∈ closes, 0 < x) (r : ℚ) (hr : rsiLast closes = some r) :
    0 ≤ r ∧ r ≤ 100 := by
  have hg : 0 ≤ avgGain14 closes :=
    div_nonneg (gains_sum_nonneg _) (by norm_num)
  have hl : 0 ≤ avgLoss14 closes :=
    div_nonneg (losses_sum_nonneg _) (by norm_num)
  rw [rsiLast, if_neg (by omega)] at hr
  by_cases h0 : avgLoss14 closes = 0
  · rw [if_pos h0] at hr
    by_cases hg0 : avgGain14 closes = 0
    · rw [if_pos hg0] at hr
      exact absurd hr (by simp)
    · rw [if_neg hg0] at hr
      injection hr with h
      subst h
      norm_num
  · rw [if_neg h0] at hr
    injection hr with h
    subst h
    have hlpos : 0 < avgLoss14 closes := lt_of_le_of_ne hl (Ne.symm h0)
    have hql : 0 ≤ avgGain14 closes / avgLoss14 closes := div_nonneg hg hlpos.le
    have h1q : (1 : ℚ) ≤ 1 + avgGain14 closes / avgLoss14 closes := by linarith
    have hdpos : 0 < 100 / (1 + avgGain14 closes / avgLoss14 closes) := by positivity
    have hdle : 100 / (1 + avgGain14 closes / avgLoss14 closes) ≤ 100 :=
      div_le_self (by norm_num) h1q
    constructor <;> linarith

/-- Witness for `rsi_bounds_when_defined` on a 252-bar series whose last
step rises, giving RSI = 100. -/
theorem rsi_bounds_when_defined_witness :
    252 ≤ (List.replicate 251 (10 : ℚ) ++ [11]).length ∧
    (∀ x ∈ List.replicate 251 (10 : ℚ) ++ [11], 0 < x) ∧
    rsiLast (List.replicate 251 (10 : ℚ) ++ [11]) = some 100 ∧
    (0 ≤ (100 : ℚ) ∧ (100 : ℚ) ≤ 100) :=
  ⟨by decide, by decide, by decide,
    rsi_bounds_when_defined (List.replicate 251 (10 : ℚ) ++ [11])
      (by decide) (by decide) 100 (by decide)⟩

/-- C9 counterexample: on a constant-price 20-bar series the divisor
`bb_upper - bb_lower = 4 * std20` of the Bollinger price-position
percentage is zero and the source divides by it with no zero guard (the
claim says this division does not happen), producing an IEEE NaN. -/
theorem bollinger_zero_denominator_counterexample :
    bollingerDivZero (List.replicate 20 (10 : ℚ)) = true := by decide

/-- C9 amended: not every division of the technical analyzer is guarded:
the volume ratio is guarded by an `avg_volume_20 > 0` check (ratio set to
0 otherwise), but the Bollinger price-position percentage divides by
`bb_upper - bb_lower` unguarded, and on any constant-price window of 20
or more equal closes that divisor is zero (sample variance 0), so the
division by zero is performed and yields NaN. -/
theorem division_guard_status (c : ℚ) (n : ℕ) (h : 20 ≤ n) :
    bollingerDivZero (List.replicate n c) = true ∧
    ∀ v : ℚ, volumeQuotient v 0 = 0 := by
  constructor
  · have hlast : lastK 20 (List.replicate n c) = List.replicate 20 c := by
      rw [lastK, List.length_replicate, List.drop_replicate]
      congr 1
      omega
    have hmean : meanQ (List.replicate 20 c) = c := by
      rw [meanQ, List.sum_replicate, List.length_replicate, nsmul_eq_mul]
      norm_num
    have hvar : sampleVar20 (List.replicate n c) = 0 := by
      rw [sampleVar20, hlast, hmean]
      simp
    simp [bollingerDivZero, hvar]
  · intro v
    rw [volumeQuotient, if_neg (lt_irrefl 0)]

/-- Witness for `division_guard_status` on a 25-bar constant series. -/
theorem division_guard_status_witness :
    20 ≤ 25 ∧ (bollingerDivZero (List.replicate 25 (7 : ℚ)) = true ∧
      ∀ v : ℚ, volumeQuotient v 0 = 0) :=
  ⟨by norm_num, division_guard_status 7 25 (by norm_num)⟩

/-! ## Theorems for claim C5 -/

/-- Entries of a sorted list are monotone in the index, stated for `getD`
at in-bounds indices. -/
theorem sorted_getD_le {s : List ℚ} (hs : List.Sorted (· ≤ ·) s) {i j : ℕ}
    (hij : i ≤ j) (hj : j < s.length) : s.getD i 0 ≤ s.getD j 0 := by
  have hi : i < s.length := lt_of_le_of_lt hij hj
  rw [List.getD_eq_getElem?_getD, List.getD_eq_getElem?_getD,
    List.getElem?_eq_getElem hi, List.getElem?_eq_getElem hj,
    Option.getD_some, Option.getD_some]
  have h := hs.rel_get_of_le (a := ⟨i, hi⟩) (b := ⟨j, hj⟩) (Fin.mk_le_mk.mpr hij)
  simpa [List.get_eq_getElem] using h

/-- The interpolation index of `np.percentile` is in bounds. -/
theorem pctIdx_lt (n q : ℕ) (hn : 0 < n) (hq : q ≤ 100) : pctIdx n q < n := by
  rw [pctIdx]
  have h1 : (n - 1) * q / 100 ≤ (n - 1) * 100 / 100 :=
    Nat.div_le_div_right (Nat.mul_le_mul_left _ hq)
  have h2 : (n - 1) * 100 / 100 = n - 1 := by omega
  omega

/-- The interpolation fraction of `np.percentile` is non-negative. -/
theorem pctFrac_nonneg (n q : ℕ) (hn : 0 < n) : 0 ≤ pctFrac n q := by
  have h1 : ((n - 1) * q / 100 : ℕ) * 100 ≤ (n - 1) * q := Nat.div_mul_le_self _ _
  have h2 : (((n - 1) * q / 100 : ℕ) : ℚ) * 100 ≤ (((n - 1) * q : ℕ) : ℚ) := by
    exact_mod_cast h1
  have h3 : (((n - 1) * q : ℕ) : ℚ) = ((n : ℚ) - 1) * q := by
    rw [Nat.cast_mul, Nat.cast_sub hn, Nat.cast_one]
  rw [pctFrac, pctIdx, sub_nonneg, le_div_iff₀ (by norm_num : (0 : ℚ) < 100)]
  rw [← h3]
  exact h2

/-- Some element of the list lies at or below its `q`-th percentile: the
linear interpolation between two sorted entries is at least the minimum. -/
theorem exists_mem_le_percentileQ (l : List ℚ) (hl : l ≠ []) (q : ℕ)
    (hq : q ≤ 100) : ∃ x ∈ l, x ≤ percentileQ l q := by
  have hperm : List.Perm (sortedOf l) l := List.perm_insertionSort _ l
  have hsort : List.Sorted (· ≤ ·) (sortedOf l) := List.sorted_insertionSort _ l
  have hne : sortedOf l ≠ [] := by
    intro h0
    exact hl (((h0 ▸ hperm) : List.Perm ([] : List ℚ) l).symm.eq_nil)
  have hlen : 0 < (sortedOf l).length := List.length_pos.mpr hne
  have hin : pctIdx (sortedOf l).length q < (sortedOf l).length :=
    pctIdx_lt _ q hlen hq
  have hf : 0 ≤ pctFrac (sortedOf l).length q := pctFrac_nonneg _ q hlen
  have hmin : min (pctIdx (sortedOf l).length q + 1) ((sortedOf l).length - 1) <
      (sortedOf l).length := by omega
  refine ⟨(sortedOf l).getD 0 0, ?_, ?_⟩
  · have hmem : (sortedOf l).getD 0 0 ∈ sortedOf l := by
      rw [List.getD_eq_getElem?_getD, List.getElem?_eq_getElem hlen,
        Option.getD_some]
      exact List.getElem_mem hlen
    exact hperm.mem_iff.mp hmem
  · rw [percentileQ]
    have h0i := sorted_getD_le hsort (Nat.zero_le _) hin
    have hbr := sorted_getD_le hsort
      (le_min (Nat.le_succ _) (by omega)) hmin
    have hprod : 0 ≤ pctFrac (sortedOf l).length q *
        ((sortedOf l).getD (min (pctIdx (sortedOf l).length q + 1)
          ((sortedOf l).length - 1)) 0 -
          (sortedOf l).getD (pctIdx (sortedOf l).length q) 0) :=
      mul_nonneg hf (sub_nonneg.mpr hbr)
    linarith

/-- The mean of the elements at or below a threshold is at most the
threshold. -/
theorem filter_mean_le (l : List ℚ) (v : ℚ)
    (hne : l.filter (fun x => decide (x ≤ v)) ≠ []) :
    (l.filter (fun x => decide (x ≤ v))).sum /
      ((l.filter (fun x => decide (x ≤ v))).length : ℚ) ≤ v := by
  have hall : ∀ x ∈ l.filter (fun x => decide (x ≤ v)), x ≤ v := by
    intro x hx
    exact of_decide_eq_true ((List.mem_filter.mp hx).2)
  have hlen : 0 < (l.filter (fun x => decide (x ≤ v))).length :=
    List.length_pos.mpr hne
  have hsum : (l.filter (fun x => decide (x ≤ v))).sum ≤
      (l.filter (fun x => decide (x ≤ v))).length • v :=
    List.sum_le_card_nsmul _ v hall
  rw [nsmul_eq_mul] at hsum
  rw [div_le_iff₀ (by exact_mod_cast hlen : (0 : ℚ) <
    ((l.filter (fun x => decide (x ≤ v))).length : ℚ))]
  linarith

/-- C5: for every non-empty return series, the computed CVaR 95 is set
(the tail at or below the VaR threshold is never empty) and is at most
VaR 95 — CVaR is at least as extreme (as negative) as VaR. -/
theorem cvar95_le_var95 (returns : List ℚ) (h : returns ≠ []) :
    ∃ c, cvarFrom returns (percentileQ returns 5) = some c ∧
      c ≤ percentileQ returns 5 := by
  obtain ⟨x, hx, hxle⟩ := exists_mem_le_percentileQ returns h 5 (by norm_num)
  have hxt : x ∈ returns.filter (fun y => decide (y ≤ percentileQ returns 5)) :=
    List.mem_filter.mpr ⟨hx, decide_eq_true hxle⟩
  have hne := List.ne_nil_of_mem hxt
  refine ⟨_, ?_, filter_mean_le returns (percentileQ returns 5) hne⟩
  rw [cvarFrom, if_neg (by simp [List.isEmpty_iff, hne])]

/-- Witness for `cvar95_le_var95` on a concrete three-point series. -/
theorem cvar95_le_var95_witness :
    ([1, -2, 3] : List ℚ) ≠ [] ∧
    ∃ c, cvarFrom [1, -2, 3] (percentileQ [1, -2, 3] 5) = some c ∧
      c ≤ percentileQ [1, -2, 3] 5 :=
  ⟨by decide, cvar95_le_var95 [1, -2, 3] (by decide)⟩

end TradingAgents
